import Mathlib

/-!
Shallow embedding of the container/bitstream assembly layer of the libjxl
encoder: `lib/jxl/encode_internal.h` and `lib/jxl/enc_file.cc`.

Machine integers are modelled as `Nat` with explicit `% 2 ^ w` where the
source's fixed-width arithmetic can wrap; byte sequences are `List Nat`
(each entry one byte); bit streams are `List Bool`; the `float`
`saliency_threshold` is modelled as a rational number, which is adequate
here because the source only ever compares it for equality with zero.
-/

namespace Jxl

/-- Box type tag: in the source a `std::array<uint8_t, 4>`; modelled as a
list of bytes (length 4 where it matters). -/
abbrev BoxType := List Nat

/-- Big-endian byte serialisation of `v` into `n` bytes, exactly as the
source's loops `output->push_back(store >> (8 * (n - 1 - i)) & 0xff)`. -/
def beBytes (n v : Nat) : List Nat :=
  (List.range n).map (fun i => v >>> (8 * (n - 1 - i)) &&& 0xff)

/-- Embedding of the template `AppendBoxHeader` of `encode_internal.h`
(lines 76-102), returning the emitted header bytes. `box_size` is a
`uint64_t` in the source, hence the `% 2 ^ 64`. -/
def AppendBoxHeader (type : BoxType) (size : Nat) (unbounded : Bool) :
    List Nat :=
  let box_size : Nat := if unbounded then 0 else (size + 8) % 2 ^ 64
  let large_size : Bool := !unbounded && decide (box_size ≥ 2 ^ 32)
  beBytes 4 (if large_size then 1 else box_size) ++ type ++
    (if large_size then beBytes 8 box_size else [])

/-- Big-endian read of a byte list. -/
def readBE (bs : List Nat) : Nat := bs.foldl (fun a b => a * 256 + b) 0

/-- Modelled from the spec: the box-header byte layout of section 4.7 /
section 6 ("a 4-byte big-endian size field counting the box including its
own 8-byte header (or ... the literal value 1 followed by an extra 8-byte
big-endian true size field), then the 4-byte type tag"). No parsing code is
part of this layer's sources; this parser realises the spec's layout so the
round-trip claim can be stated. Returns the type tag and the payload
length. -/
def parseBoxHeader (bs : List Nat) : Option (BoxType × Nat) :=
  if bs.length < 8 then none
  else
    let sz := readBE (bs.take 4)
    let ty := (bs.drop 4).take 4
    if sz = 1 then
      if bs.length < 16 then none
      else some (ty, readBE ((bs.drop 8).take 8) - 8)
    else some (ty, sz - 8)

/-- Encoder session state: the fields of `JxlEncoderStruct`
(`encode_internal.h` lines 108-171) that the container decision reads.
`codestream_level` is a `uint32_t` in the source. -/
structure JxlEncoderStruct where
  use_container : Bool
  use_boxes : Bool
  codestream_level : Nat
  store_jpeg_metadata : Bool

/-- Embedding of `JxlEncoderStruct::MustUseContainer` (`encode_internal.h`
lines 162-165). -/
def JxlEncoderStruct.MustUseContainer (e : JxlEncoderStruct) : Bool :=
  e.use_container || decide (e.codestream_level ≠ 5) ||
    e.store_jpeg_metadata || e.use_boxes

/-- Pixel data, opaque at this layer (this layer never inspects pixels). -/
abbrev ImageF := List (List ℚ)

/-- One progressive pass descriptor: the `PassDefinition` record as
populated by the static tables of `enc_file.cc` (lines 33-66). -/
structure PassDefinition where
  num_coefficients : Nat
  shift : Nat
  salient_only : Bool
  suitable_for_downsampling_of_at_least : Nat
  deriving DecidableEq, Repr

/-- `progressive_passes_dc_vlf` (`enc_file.cc` lines 33-35): DC plus very
low frequency. -/
def progressive_passes_dc_vlf : List PassDefinition :=
  [⟨2, 0, false, 4⟩]

/-- `progressive_passes_dc_lf` (`enc_file.cc` lines 37-41). -/
def progressive_passes_dc_lf : List PassDefinition :=
  [⟨2, 0, false, 4⟩, ⟨3, 0, false, 2⟩]

/-- `progressive_passes_dc_lf_salient_ac` (`enc_file.cc` lines 43-49). -/
def progressive_passes_dc_lf_salient_ac : List PassDefinition :=
  [⟨2, 0, false, 4⟩, ⟨3, 0, false, 2⟩, ⟨8, 0, true, 0⟩]

/-- `progressive_passes_dc_lf_salient_ac_other_ac` (`enc_file.cc` lines
51-59). -/
def progressive_passes_dc_lf_salient_ac_other_ac : List PassDefinition :=
  [⟨2, 0, false, 4⟩, ⟨3, 0, false, 2⟩, ⟨8, 0, true, 0⟩, ⟨8, 0, false, 0⟩]

/-- `progressive_passes_dc_quant_ac_full_ac` (`enc_file.cc` lines 61-66). -/
def progressive_passes_dc_quant_ac_full_ac : List PassDefinition :=
  [⟨8, 1, false, 2⟩, ⟨8, 0, false, 0⟩]

/-- The static catalog of the five progressive-pass tables of
`enc_file.cc` lines 33-66. -/
def progressiveModeCatalog : List (List PassDefinition) :=
  [progressive_passes_dc_vlf, progressive_passes_dc_lf,
   progressive_passes_dc_lf_salient_ac,
   progressive_passes_dc_lf_salient_ac_other_ac,
   progressive_passes_dc_quant_ac_full_ac]

/-- Non-decreasing information order across consecutive passes of a
table: `num_coefficients` never decreases and
`suitable_for_downsampling_of_at_least` never increases. -/
def passesNonDecreasingInfo : List PassDefinition → Bool
  | [] => true
  | [_] => true
  | a :: b :: rest =>
    decide (a.num_coefficients ≤ b.num_coefficients) &&
    decide (b.suitable_for_downsampling_of_at_least ≤
      a.suitable_for_downsampling_of_at_least) &&
    passesNonDecreasingInfo (b :: rest)

/-- First pass usable as a DC/low-frequency approximation: it covers all
pixels (not salient-only) and is declared suitable for downsampling by a
factor of at least 2. -/
def firstPassLowFrequency : List PassDefinition → Bool
  | [] => false
  | p :: _ => !p.salient_only &&
      decide (2 ≤ p.suitable_for_downsampling_of_at_least)

/-- The fields of `CompressParams` that the progressive-mode selection of
`EncodeFile` reads (`enc_file.cc` lines 177-216). `saliency_threshold` is
a `float` in the source, modelled as a rational number (the source only
compares it for equality with `0.0f`, under which IEEE `+0`/`-0` collapse
exactly as rationals do); `saliency_map` is a possibly-null pointer. -/
structure CompressParams where
  progressive_mode : Bool
  qprogressive_mode : Bool
  saliency_num_progressive_steps : Nat
  saliency_threshold : ℚ
  saliency_map : Option ImageF

/-- Modelled from the spec: the progressive splitter owned by the shared
encode state (its class lives in `enc_progressive_split.h`, not among
these sources). Per spec section 4.5, a saliency map and threshold are
attached to it and the selected refinement table is installed on it; each
setter stores its argument in the corresponding field. -/
structure ProgressiveSplitter where
  saliency_map : Option ImageF
  saliency_threshold : ℚ
  progressive_mode : Option (List PassDefinition)

/-- Modelled from the spec: store the saliency map on the splitter. -/
def ProgressiveSplitter.SetSaliencyMap (s : ProgressiveSplitter)
    (m : ImageF) : ProgressiveSplitter :=
  { s with saliency_map := some m }

/-- Modelled from the spec: store the saliency threshold on the splitter. -/
def ProgressiveSplitter.SetSaliencyThreshold (s : ProgressiveSplitter)
    (t : ℚ) : ProgressiveSplitter :=
  { s with saliency_threshold := t }

/-- Modelled from the spec: install the selected pass table on the
splitter. -/
def ProgressiveSplitter.SetProgressiveMode (s : ProgressiveSplitter)
    (m : List PassDefinition) : ProgressiveSplitter :=
  { s with progressive_mode := some m }

/-- Embedding of the progressive-mode selection block of `EncodeFile`
(`enc_file.cc` lines 177-216): when a progressive flag is set, attach the
saliency map (if non-null) and the threshold (always) to the splitter and
install the selected pass table, or fail on an out-of-range step count;
otherwise the splitter is untouched. The C++ `switch` on
`saliency_num_progressive_steps` is rendered as an equality chain. -/
def installProgressive (cparams : CompressParams)
    (splitter : ProgressiveSplitter) : Except String ProgressiveSplitter :=
  if cparams.progressive_mode || cparams.qprogressive_mode then
    let s1 := match cparams.saliency_map with
      | some m => splitter.SetSaliencyMap m
      | none => splitter
    let s2 := s1.SetSaliencyThreshold cparams.saliency_threshold
    if cparams.qprogressive_mode then
      .ok (s2.SetProgressiveMode progressive_passes_dc_quant_ac_full_ac)
    else if cparams.saliency_num_progressive_steps = 1 then
      .ok (s2.SetProgressiveMode progressive_passes_dc_vlf)
    else if cparams.saliency_num_progressive_steps = 2 then
      .ok (s2.SetProgressiveMode progressive_passes_dc_lf)
    else if cparams.saliency_num_progressive_steps = 3 then
      .ok (s2.SetProgressiveMode progressive_passes_dc_lf_salient_ac)
    else if cparams.saliency_num_progressive_steps = 4 then
      if cparams.saliency_threshold = 0 then
        .ok (s2.SetProgressiveMode progressive_passes_dc_lf_salient_ac)
      else
        .ok (s2.SetProgressiveMode
          progressive_passes_dc_lf_salient_ac_other_ac)
    else .error "Invalid saliency_num_progressive_steps."
  else .ok splitter

/-- Per-frame flags: the `FrameInfo` record as constructed in the frame
loop of `EncodeFile` (`enc_file.cc` lines 218-223). -/
structure FrameInfo where
  is_preview : Bool := false
  is_last : Bool := false
  save_as_reference : Nat := 0

/-- One input frame as the loop sees it: the `use_for_next_frame` flag of
its `ImageBundle`, plus pixel data opaque to this layer. -/
structure Frame where
  use_for_next_frame : Bool
  data : ImageF

/-- The parts of the shared `PassesSharedState` that `EncodeFile` clears
after the loop (`enc_file.cc` lines 229-233): the four `dc_frames` and
the four `reference_frames[i].storage` images. A default-constructed
image (`Image3F()` / `ImageBundle()`) is the empty image `[]`. -/
structure PassesSharedState where
  dc_frames : List ImageF
  reference_frames : List ImageF

/-- The parts of `PassesEncoderState` this layer touches: the progressive
splitter and the shared state. -/
structure PassesEncoderState where
  progressive_splitter : ProgressiveSplitter
  shared : PassesSharedState

/-- The frame loop of `EncodeFile` (`enc_file.cc` lines 218-227):
`is_last` is true only for the final frame and `save_as_reference` is 1
exactly for frames marked `use_for_next_frame`; the external `EncodeFrame`
collaborator (defined in `enc_frame.cc`, outside these sources) is passed
in as a function which updates the shared state and appends bits to the
writer, or fails (`none`). -/
def encodeFrames
    (encodeFrame : CompressParams → FrameInfo → Frame →
      PassesEncoderState → Option (PassesEncoderState × List Bool))
    (cparams : CompressParams) :
    List Frame → PassesEncoderState → List Bool →
      Option (PassesEncoderState × List Bool)
  | [], st, writer => some (st, writer)
  | f :: rest, st, writer =>
    let info : FrameInfo :=
      { is_last := rest.isEmpty,
        save_as_reference := if f.use_for_next_frame then 1 else 0 }
    match encodeFrame cparams info f st with
    | none => none
    | some (st', bits) =>
      encodeFrames encodeFrame cparams rest st' (writer ++ bits)

/-- Embedding of `EncodeFile` (`enc_file.cc` lines 144-237). The
header/ICC/preview assembly that precedes the progressive selection is
performed by external collaborators (`WriteHeaders` internals, `WriteICC`,
`EncodeFrame`); its outcome is the `headers` parameter (`none` = a failed
step before the selection). Then the progressive selection runs, then the
frame loop; on success the four `dc_frames` and the four
`reference_frames` storages are reset to default-constructed (empty)
images before the writer's bytes are returned. An early failure returns
without performing the cleanup, exactly as the source's
`JXL_RETURN_IF_ERROR` does. -/
def EncodeFile (headers : Option (List Bool))
    (encodeFrame : CompressParams → FrameInfo → Frame →
      PassesEncoderState → Option (PassesEncoderState × List Bool))
    (cparams : CompressParams) (frames : List Frame)
    (passes_enc_state : PassesEncoderState) :
    Except String (PassesEncoderState × List Bool) :=
  match headers with
  | none => .error "header write failed"
  | some writer =>
    match installProgressive cparams
        passes_enc_state.progressive_splitter with
    | .error e => .error e
    | .ok sp =>
      match encodeFrames encodeFrame cparams frames
          { passes_enc_state with progressive_splitter := sp } writer with
      | none => .error "frame encode failed"
      | some (st, bits) =>
        .ok ({ st with shared :=
          { dc_frames := [[], [], [], []],
            reference_frames := [[], [], [], []] } }, bits)

/-- `BitWriter::ZeroPadToByte`: append zero bits up to the next byte
boundary (the bit sink itself is an external collaborator; it is modelled
as the list of bits written). -/
def zeroPadToByte (w : List Bool) : List Bool :=
  w ++ List.replicate ((8 - w.length % 8) % 8) false

/-- The preview side buffer of `EncodePreview` (`enc_file.cc` lines
99-113): when the input has color, the preview frame is encoded by the
external frame encoder (`none` = failure) into `preview_writer`, which is
then zero-padded to a byte boundary; otherwise the side buffer stays
empty. -/
def previewSideBuffer (encodedPreviewBits : Option (List Bool))
    (hasColor : Bool) : Option (List Bool) :=
  if hasColor then encodedPreviewBits.map zeroPadToByte else some []

/-- Embedding of `EncodePreview` (`enc_file.cc` lines 96-121): build the
side buffer, then append it to the main writer, byte-aligning the main
writer first, exactly when the side buffer has a nonzero bit count. -/
def EncodePreview (encodedPreviewBits : Option (List Bool))
    (hasColor : Bool) (writer : List Bool) : Option (List Bool) :=
  match previewSideBuffer encodedPreviewBits hasColor with
  | none => none
  | some preview_writer =>
    some (if preview_writer.length ≠ 0 then
            zeroPadToByte writer ++ preview_writer
          else writer)

/-- Memory manager handle, opaque at this layer: `JxlEncoderQueuedInput`'s
constructor only uses it to build deleters. -/
structure JxlMemoryManager where
  handle : Nat

/-- `JxlEncoderQueuedFrame` (`encode_internal.h` lines 52-56), with the
frame-settings snapshot elided (opaque to the claims). -/
structure JxlEncoderQueuedFrame where
  frame : ImageF
  ec_initialized : List Nat

/-- `JxlEncoderQueuedBox` (`encode_internal.h` lines 58-62). -/
structure JxlEncoderQueuedBox where
  type : BoxType
  contents : List Nat
  compress_box : Bool

/-- `JxlEncoderQueuedInput` (`encode_internal.h` lines 64-71): two owning
pointers, `frame` and `box`; a null pointer is `none`. -/
structure JxlEncoderQueuedInput where
  frame : Option JxlEncoderQueuedFrame
  box : Option JxlEncoderQueuedBox

/-- The constructor of `JxlEncoderQueuedInput` (`encode_internal.h` lines
66-68): it initialises both pointers to null. -/
def JxlEncoderQueuedInput.make (_memory_manager : JxlMemoryManager) :
    JxlEncoderQueuedInput :=
  { frame := none, box := none }

/-- The claimed tagged-union invariant: exactly one of `frame` / `box` is
populated. -/
def JxlEncoderQueuedInput.exactlyOne (q : JxlEncoderQueuedInput) : Bool :=
  (q.frame.isSome && !q.box.isSome) || (!q.frame.isSome && q.box.isSome)

end Jxl

namespace Jxl

/-! ## Theorems -/

theorem list_range_four : List.range 4 = [0, 1, 2, 3] := rfl

theorem list_range_eight : List.range 8 = [0, 1, 2, 3, 4, 5, 6, 7] := rfl

theorem beBytes_four (v : Nat) :
    beBytes 4 v = [v >>> 24 &&& 255, v >>> 16 &&& 255, v >>> 8 &&& 255,
      v >>> 0 &&& 255] := by
  simp [beBytes, list_range_four]

theorem beBytes_eight (v : Nat) :
    beBytes 8 v = [v >>> 56 &&& 255, v >>> 48 &&& 255, v >>> 40 &&& 255,
      v >>> 32 &&& 255, v >>> 24 &&& 255, v >>> 16 &&& 255, v >>> 8 &&& 255,
      v >>> 0 &&& 255] := by
  simp [beBytes, list_range_eight]

theorem byte_eq (v k : Nat) : v >>> k &&& 255 = v / 2 ^ k % 256 := by
  have h : (255 : Nat) = 2 ^ 8 - 1 := rfl
  rw [h, Nat.and_pow_two_sub_one_eq_mod, Nat.shiftRight_eq_div_pow]

theorem readBE_beBytes_four (v : Nat) (h : v < 2 ^ 32) :
    readBE (beBytes 4 v) = v := by
  rw [beBytes_four]
  simp only [byte_eq, readBE, List.foldl]
  norm_num
  omega

theorem readBE_beBytes_eight (v : Nat) (h : v < 2 ^ 64) :
    readBE (beBytes 8 v) = v := by
  rw [beBytes_eight]
  simp only [byte_eq, readBE, List.foldl]
  norm_num
  omega

theorem beBytes_length (n v : Nat) : (beBytes n v).length = n := by
  simp [beBytes]

/-- C1: `MustUseContainer` returns `false` iff none of the four conditions
hold (no explicit container request, codestream level equal to the default
5, `store_jpeg_metadata` false, `use_boxes` false), and `true` otherwise,
for every encoder session state. -/
theorem MustUseContainer_false_iff (e : JxlEncoderStruct) :
    (e.MustUseContainer = false ↔
      e.use_container = false ∧ e.codestream_level = 5 ∧
      e.store_jpeg_metadata = false ∧ e.use_boxes = false) ∧
    (e.MustUseContainer = true ↔
      ¬(e.use_container = false ∧ e.codestream_level = 5 ∧
        e.store_jpeg_metadata = false ∧ e.use_boxes = false)) := by
  have h1 : e.MustUseContainer = false ↔
      e.use_container = false ∧ e.codestream_level = 5 ∧
      e.store_jpeg_metadata = false ∧ e.use_boxes = false := by
    simp [JxlEncoderStruct.MustUseContainer]
    tauto
  refine ⟨h1, ?_⟩
  rw [← h1]
  cases e.MustUseContainer <;> simp

/-- C2: for every 4-byte type tag and every payload size `S` representable
without overflowing the source's `uint64_t` box size, `AppendBoxHeader`
with `unbounded = false` emits a header that parses back to the same type
and payload length; the extended-size form (16-byte header, 4-byte field
holding 1, 8-byte big-endian true size counting the 8-byte base header) is
used exactly when `S ≥ 2^32 - 8`, and otherwise the header is the single
4-byte big-endian size field holding `S + 8` followed by the type. -/
theorem AppendBoxHeader_roundtrip (ty : BoxType) (S : Nat)
    (hty : ty.length = 4) (hS : S + 8 < 2 ^ 64) :
    parseBoxHeader (AppendBoxHeader ty S false) = some (ty, S) ∧
    ((AppendBoxHeader ty S false).length = 16 ↔ 2 ^ 32 - 8 ≤ S) ∧
    (S < 2 ^ 32 - 8 →
      AppendBoxHeader ty S false = beBytes 4 (S + 8) ++ ty) := by
  have hmod : (S + 8) % 18446744073709551616 = S + 8 :=
    Nat.mod_eq_of_lt (by omega)
  by_cases hbig : 4294967296 ≤ S + 8
  · have hd : AppendBoxHeader ty S false
        = beBytes 4 1 ++ (ty ++ beBytes 8 (S + 8)) := by
      simp [AppendBoxHeader, hmod, hbig, List.append_assoc]
    have hlen : (beBytes 4 1 ++ (ty ++ beBytes 8 (S + 8))).length = 16 := by
      simp [beBytes_length, hty]
    refine ⟨?_, ?_, ?_⟩
    · rw [hd]
      rw [parseBoxHeader]
      rw [if_neg (by rw [hlen]; omega)]
      rw [List.take_left' (beBytes_length 4 1)]
      rw [readBE_beBytes_four 1 (by norm_num)]
      rw [if_pos rfl]
      rw [if_neg (by rw [hlen]; omega)]
      rw [List.drop_left' (beBytes_length 4 1), List.take_left' hty]
      have hdrop : (beBytes 4 1 ++ (ty ++ beBytes 8 (S + 8))).drop 8
          = beBytes 8 (S + 8) := by
        rw [← List.append_assoc]
        exact List.drop_left' (by simp [beBytes_length, hty])
      rw [hdrop]
      rw [List.take_of_length_le (by rw [beBytes_length])]
      rw [readBE_beBytes_eight (S + 8) hS, Nat.add_sub_cancel]
    · rw [hd, hlen]
      constructor
      · intro _
        omega
      · intro _
        rfl
    · intro hsmall
      omega
  · have hd : AppendBoxHeader ty S false = beBytes 4 (S + 8) ++ ty := by
      simp [AppendBoxHeader, hmod, hbig]
    have hlen : (beBytes 4 (S + 8) ++ ty).length = 8 := by
      simp [beBytes_length, hty]
    refine ⟨?_, ?_, ?_⟩
    · rw [hd]
      rw [parseBoxHeader]
      rw [if_neg (by rw [hlen]; omega)]
      rw [List.take_left' (beBytes_length 4 (S + 8))]
      rw [readBE_beBytes_four (S + 8) (by omega)]
      rw [if_neg (by omega)]
      rw [List.drop_left' (beBytes_length 4 (S + 8))]
      rw [List.take_of_length_le (by rw [hty]), Nat.add_sub_cancel]
    · rw [hd, hlen]
      constructor
      · intro h16
        omega
      · intro hge
        omega
    · intro _
      exact hd

/-- C2 witness: a concrete small payload and a concrete boundary payload
both round-trip, and the boundary payload takes the extended form. -/
theorem AppendBoxHeader_roundtrip_witness :
    parseBoxHeader (AppendBoxHeader [106, 120, 108, 32] 5 false)
        = some ([106, 120, 108, 32], 5) ∧
    ((AppendBoxHeader [106, 120, 108, 32] (2 ^ 32 - 8) false).length = 16 ↔
      2 ^ 32 - 8 ≤ 2 ^ 32 - 8) :=
  ⟨(AppendBoxHeader_roundtrip [106, 120, 108, 32] 5 (by decide)
      (by norm_num)).1,
   (AppendBoxHeader_roundtrip [106, 120, 108, 32] (2 ^ 32 - 8) (by decide)
      (by norm_num)).2.1⟩

/-- C3 counterexample: for an unbounded box the source does NOT omit the
size field; it emits a 4-byte size field holding 0 before the type tag, so
the header is not the bare 4-byte type tag. -/
theorem AppendBoxHeader_unbounded_counterexample :
    AppendBoxHeader [106, 120, 108, 32] 0 true
        = [0, 0, 0, 0, 106, 120, 108, 32] ∧
    AppendBoxHeader [106, 120, 108, 32] 0 true ≠ [106, 120, 108, 32] := by
  constructor
  · decide
  · decide

/-- C3 amended: for every box header written with `unbounded = true`, the
emitted header is a 4-byte size field holding the literal value 0 (meaning
the box runs to end-of-stream) followed by the 4-byte type tag, with no
extended-size field, independently of the `size` argument. -/
theorem AppendBoxHeader_unbounded (ty : BoxType) (size : Nat) :
    AppendBoxHeader ty size true = [0, 0, 0, 0] ++ ty := by
  simp [AppendBoxHeader, beBytes, list_range_four]

/-- C4 counterexample: an encode call whose saliency step count is 7
(outside {1,2,3,4}) but whose progressive and quality-progressive flags
are both unset is NOT rejected: the selection block is skipped entirely
and the encode succeeds. -/
theorem EncodeFile_steps_counterexample :
    (7 ∉ ([1, 2, 3, 4] : List Nat)) ∧
    EncodeFile (some []) (fun _ _ _ st => some (st, []))
        ⟨false, false, 7, 0, none⟩ [⟨false, []⟩]
        ⟨⟨none, 0, none⟩, ⟨[], []⟩⟩
      = .ok (⟨⟨none, 0, none⟩,
          ⟨[[], [], [], []], [[], [], [], []]⟩⟩, []) := by
  exact ⟨by decide, rfl⟩

/-- C4 amended: for every encode call with the progressive flag set, the
quality-progressive flag unset and a saliency step count outside
{1,2,3,4}, and whose header assembly did not already fail, `EncodeFile`
fails with the invalid-step-count configuration error, for every frame
encoder and every frame list — i.e. before any frame is encoded. -/
theorem EncodeFile_rejects_bad_steps (writer : List Bool)
    (encodeFrame : CompressParams → FrameInfo → Frame →
      PassesEncoderState → Option (PassesEncoderState × List Bool))
    (cparams : CompressParams) (frames : List Frame)
    (st : PassesEncoderState)
    (hp : cparams.progressive_mode = true)
    (hq : cparams.qprogressive_mode = false)
    (hs : cparams.saliency_num_progressive_steps ∉ ([1, 2, 3, 4] : List Nat)) :
    EncodeFile (some writer) encodeFrame cparams frames st
      = .error "Invalid saliency_num_progressive_steps." := by
  simp only [List.mem_cons, List.not_mem_nil, or_false, not_or] at hs
  obtain ⟨h1, h2, h3, h4⟩ := hs
  simp [EncodeFile, installProgressive, hp, hq, h1, h2, h3, h4]

/-- C4 witness: a concrete progressive encode call with step count 0 is
rejected with the invalid-step-count error. -/
theorem EncodeFile_rejects_bad_steps_witness :
    EncodeFile (some []) (fun _ _ _ st => some (st, []))
        ⟨true, false, 0, 0, none⟩ [] ⟨⟨none, 0, none⟩, ⟨[], []⟩⟩
      = .error "Invalid saliency_num_progressive_steps." :=
  EncodeFile_rejects_bad_steps [] _ _ _ _ rfl rfl (by decide)

/-- C5: whenever the quality-progressive flag is set, the table installed
on the splitter is the 2-pass quant-then-full-AC table (num_coefficients
8 with shift 1, then num_coefficients 8 with shift 0), regardless of the
saliency step count and of whether a saliency map is supplied. -/
theorem qprogressive_selects_quant_full (cparams : CompressParams)
    (splitter : ProgressiveSplitter)
    (hq : cparams.qprogressive_mode = true) :
    Except.map ProgressiveSplitter.progressive_mode
        (installProgressive cparams splitter)
      = .ok (some progressive_passes_dc_quant_ac_full_ac) ∧
    progressive_passes_dc_quant_ac_full_ac
      = [⟨8, 1, false, 2⟩, ⟨8, 0, false, 0⟩] := by
  refine ⟨?_, rfl⟩
  cases hm : cparams.saliency_map with
  | none =>
    simp [installProgressive, hq, hm, ProgressiveSplitter.SetProgressiveMode,
      ProgressiveSplitter.SetSaliencyThreshold, Except.map]
  | some m =>
    simp [installProgressive, hq, hm, ProgressiveSplitter.SetProgressiveMode,
      ProgressiveSplitter.SetSaliencyThreshold,
      ProgressiveSplitter.SetSaliencyMap, Except.map]

/-- C5 witness: quality-progressive with a saliency map present and step
count 99 still installs the quant-then-full-AC table. -/
theorem qprogressive_selects_quant_full_witness :
    Except.map ProgressiveSplitter.progressive_mode
        (installProgressive ⟨false, true, 99, 0, some [[0]]⟩
          ⟨none, 0, none⟩)
      = .ok (some progressive_passes_dc_quant_ac_full_ac) :=
  (qprogressive_selects_quant_full ⟨false, true, 99, 0, some [[0]]⟩
    ⟨none, 0, none⟩ rfl).1

/-- C6: with the progressive flag set, the quality-progressive flag unset
and step count 4, a zero saliency threshold selects the same 3-pass
DC + low-frequency + salient-AC table as step count 3, and a nonzero
threshold selects the 4-pass table with the extra other-AC pass. -/
theorem steps4_threshold_selection (cparams : CompressParams)
    (splitter : ProgressiveSplitter)
    (hp : cparams.progressive_mode = true)
    (hq : cparams.qprogressive_mode = false)
    (hs : cparams.saliency_num_progressive_steps = 4) :
    Except.map ProgressiveSplitter.progressive_mode
        (installProgressive cparams splitter)
      = .ok (some (if cparams.saliency_threshold = 0 then
            progressive_passes_dc_lf_salient_ac
          else progressive_passes_dc_lf_salient_ac_other_ac)) ∧
    (cparams.saliency_threshold = 0 →
      installProgressive cparams splitter
        = installProgressive
            { cparams with saliency_num_progressive_steps := 3 }
            splitter) := by
  constructor
  · by_cases ht : cparams.saliency_threshold = 0 <;>
      cases hm : cparams.saliency_map <;>
        simp [installProgressive, hp, hq, hs, hm, ht,
          ProgressiveSplitter.SetProgressiveMode,
          ProgressiveSplitter.SetSaliencyThreshold,
          ProgressiveSplitter.SetSaliencyMap, Except.map]
  · intro ht
    cases hm : cparams.saliency_map <;>
      simp [installProgressive, hp, hq, hs, hm, ht]

/-- C6 witness: a concrete step-4 call with threshold 0 selects the same
table as the corresponding step-3 call. -/
theorem steps4_threshold_selection_witness :
    Except.map ProgressiveSplitter.progressive_mode
        (installProgressive ⟨true, false, 4, 0, none⟩ ⟨none, 0, none⟩)
      = .ok (some (if (0 : ℚ) = 0 then progressive_passes_dc_lf_salient_ac
          else progressive_passes_dc_lf_salient_ac_other_ac)) ∧
    installProgressive ⟨true, false, 4, 0, none⟩ ⟨none, 0, none⟩
      = installProgressive ⟨true, false, 3, 0, none⟩ ⟨none, 0, none⟩ :=
  ⟨(steps4_threshold_selection ⟨true, false, 4, 0, none⟩ ⟨none, 0, none⟩
      rfl rfl rfl).1,
   (steps4_threshold_selection ⟨true, false, 4, 0, none⟩ ⟨none, 0, none⟩
      rfl rfl rfl).2 rfl⟩

/-- C7: every table in the static progressive-pass catalog lists its
passes in non-decreasing information order (num_coefficients never
decreases, suitable_for_downsampling_of_at_least never increases across
consecutive passes) and its first pass is usable as a DC/low-frequency
approximation. -/
theorem catalog_ordered (t : List PassDefinition)
    (ht : t ∈ progressiveModeCatalog) :
    passesNonDecreasingInfo t = true ∧ firstPassLowFrequency t = true := by
  simp only [progressiveModeCatalog, List.mem_cons, List.not_mem_nil,
    or_false] at ht
  rcases ht with rfl | rfl | rfl | rfl | rfl <;> exact ⟨rfl, rfl⟩

/-- C7 witness: the DC + low-frequency table is in the catalog, is listed
in non-decreasing information order and starts with a low-frequency
pass. -/
theorem catalog_ordered_witness :
    passesNonDecreasingInfo progressive_passes_dc_lf = true ∧
    firstPassLowFrequency progressive_passes_dc_lf = true :=
  catalog_ordered progressive_passes_dc_lf (by decide)

theorem zeroPadToByte_length_mod (w : List Bool) :
    (zeroPadToByte w).length % 8 = 0 := by
  simp only [zeroPadToByte, List.length_append, List.length_replicate]
  omega

/-- C8: `EncodePreview` appends bytes to the main writer iff the preview
side buffer is non-empty after encoding: an empty side buffer (absent or
empty preview) leaves the main writer exactly as it was, with no bytes
appended, and a non-empty side buffer is appended verbatim after the main
writer is zero-padded to a byte boundary, the side buffer itself being
byte-aligned. -/
theorem encodePreview_append_iff (encodedPreviewBits : Option (List Bool))
    (hasColor : Bool) (writer : List Bool) :
    (previewSideBuffer encodedPreviewBits hasColor = some [] →
      EncodePreview encodedPreviewBits hasColor writer = some writer) ∧
    (∀ pw, previewSideBuffer encodedPreviewBits hasColor = some pw →
      pw ≠ [] →
      EncodePreview encodedPreviewBits hasColor writer
          = some (zeroPadToByte writer ++ pw) ∧
        pw.length % 8 = 0 ∧ (zeroPadToByte writer).length % 8 = 0) := by
  constructor
  · intro h
    simp [EncodePreview, h]
  · intro pw hpw hne
    have hlen : pw.length ≠ 0 := by
      intro h0
      exact hne (List.length_eq_zero.mp h0)
    refine ⟨by simp [EncodePreview, hpw, hlen], ?_, zeroPadToByte_length_mod writer⟩
    unfold previewSideBuffer at hpw
    cases hasColor with
    | false =>
      simp at hpw
      exact absurd hpw hne
    | true =>
      simp at hpw
      obtain ⟨bits, _, rfl⟩ := hpw
      exact zeroPadToByte_length_mod bits

/-- C8 witness: a one-bit preview gets padded to one byte and appended to
a byte-aligned main writer; both sides are byte-aligned. -/
theorem encodePreview_append_iff_witness :
    EncodePreview (some [true]) true [true, true]
        = some (zeroPadToByte [true, true] ++ zeroPadToByte [true]) ∧
      (zeroPadToByte [true]).length % 8 = 0 ∧
      (zeroPadToByte [true, true]).length % 8 = 0 :=
  (encodePreview_append_iff (some [true]) true [true, true]).2
    (zeroPadToByte [true]) rfl (by decide)

/-- C9: whenever `EncodeFile` completes successfully, all four
`dc_frames` accumulators and all four `reference_frames` storages of the
shared encode state it returns are reset to empty images, regardless of
the frame encoder's behaviour during the loop, so a subsequent encode
reusing the state observes no pixel data from this one. -/
theorem encodeFile_clears_shared (headers : Option (List Bool))
    (encodeFrame : CompressParams → FrameInfo → Frame →
      PassesEncoderState → Option (PassesEncoderState × List Bool))
    (cparams : CompressParams) (frames : List Frame)
    (st st' : PassesEncoderState) (out : List Bool)
    (h : EncodeFile headers encodeFrame cparams frames st
        = .ok (st', out)) :
    st'.shared.dc_frames = [[], [], [], []] ∧
    st'.shared.reference_frames = [[], [], [], []] := by
  unfold EncodeFile at h
  split at h
  · simp at h
  · split at h
    · simp at h
    · split at h
      · simp at h
      · simp only [Except.ok.injEq, Prod.mk.injEq] at h
        obtain ⟨hst, _⟩ := h
        rw [← hst]
        exact ⟨rfl, rfl⟩

/-- C9 witness: a concrete successful encode starting from dirty slots
returns the shared state with all slots cleared. -/
theorem encodeFile_clears_shared_witness :
    ((⟨⟨none, 0, none⟩, ⟨[[], [], [], []], [[], [], [], []]⟩⟩ :
        PassesEncoderState)).shared.dc_frames = [[], [], [], []] ∧
    ((⟨⟨none, 0, none⟩, ⟨[[], [], [], []], [[], [], [], []]⟩⟩ :
        PassesEncoderState)).shared.reference_frames = [[], [], [], []] :=
  encodeFile_clears_shared (some []) (fun _ _ _ s => some (s, []))
    ⟨false, false, 0, 0, none⟩ [⟨true, [[1]]⟩]
    ⟨⟨none, 0, none⟩, ⟨[[[1]]], [[[2]]]⟩⟩ _ [] rfl

/-- C10 counterexample: immediately after construction a
`JxlEncoderQueuedInput` holds neither a frame nor a box (both pointers
are null), so the claimed "exactly one of frame/box at every point of the
lifetime, including immediately after construction" fails at construction
time. -/
theorem queuedInput_counterexample :
    (JxlEncoderQueuedInput.make ⟨0⟩).exactlyOne = false ∧
    (JxlEncoderQueuedInput.make ⟨0⟩).frame = none ∧
    (JxlEncoderQueuedInput.make ⟨0⟩).box = none :=
  ⟨rfl, rfl, rfl⟩

/-- C10 amended: immediately after construction a `JxlEncoderQueuedInput`
holds neither a queued frame nor a queued box — the constructor
initialises both owning pointers to null, so at construction time the
never-neither half of the claimed exactly-one invariant fails (and, both
fields being null there, the value does not hold both either). -/
theorem queuedInput_make_empty (mm : JxlMemoryManager) :
    (JxlEncoderQueuedInput.make mm).frame = none ∧
    (JxlEncoderQueuedInput.make mm).box = none :=
  ⟨rfl, rfl⟩
